import Mathlib

/-!
# CuePad overlay engine: formal model and verification

A shallow embedding of the coordinate-normalization and overlay-rendering
engine of the CuePad script-annotating application (PDFViewer component,
cue dialogs and the highlights repository), with theorems settling the
specified properties.

Coordinates are modelled over the rationals: the JavaScript source computes
with IEEE doubles, and every claim under study is about exact arithmetic
relationships (divisions and multiplications by surface dimensions, fixed
pixel offsets), which the rational model captures; tolerance claims are
stated with their stated tolerance.
-/

namespace CuePad

/-- A screen- or unit-space point (source: the plain x/y objects used in
PDFViewer for selection and path points). -/
structure Pt where
  x : ℚ
  y : ℚ
deriving DecidableEq, Repr

/-- Unit normalization, as performed inline throughout PDFViewer
(e.g. handleMouseUp: normalizedX = point.x / canvasWidth,
normalizedY = point.y / canvasHeight). -/
def toUnit (p : Pt) (surfaceWidth surfaceHeight : ℚ) : Pt :=
  ⟨p.x / surfaceWidth, p.y / surfaceHeight⟩

/-- Denormalization back to screen space, as performed inline in
renderSavedHighlights (absX = parseFloat x * canvasWidth,
absY = parseFloat y * canvasHeight). -/
def toScreen (u : Pt) (surfaceWidth surfaceHeight : ℚ) : Pt :=
  ⟨u.x * surfaceWidth, u.y * surfaceHeight⟩

/-- C1: Coordinate round-trip. For every surface with width w > 0 and
height h > 0 and every point p inside the surface bounds, normalizing p to
unit coordinates and converting back to screen coordinates returns p
within 1e-6 on each axis (in the exact model the difference is zero). -/
theorem toScreen_toUnit_roundTrip (w h : ℚ) (p : Pt)
    (hw : 0 < w) (hh : 0 < h)
    (hx0 : 0 ≤ p.x) (hx1 : p.x ≤ w) (hy0 : 0 ≤ p.y) (hy1 : p.y ≤ h) :
    |(toScreen (toUnit p w h) w h).x - p.x| ≤ 1 / 1000000 ∧
    |(toScreen (toUnit p w h) w h).y - p.y| ≤ 1 / 1000000 := by
  have hx : (toScreen (toUnit p w h) w h).x = p.x := by
    simp [toScreen, toUnit]
    exact div_mul_cancel₀ p.x hw.ne'
  have hy : (toScreen (toUnit p w h) w h).y = p.y := by
    simp [toScreen, toUnit]
    exact div_mul_cancel₀ p.y hh.ne'
  rw [hx, hy]
  norm_num

/-- Round-trip law instantiated on a concrete surface and point. -/
theorem toScreen_toUnit_roundTrip_witness :
    (0 : ℚ) < 800 ∧ (0 : ℚ) < 1000 ∧
    |(toScreen (toUnit ⟨100, 100⟩ 800 1000) 800 1000).x - 100| ≤ 1 / 1000000 ∧
    |(toScreen (toUnit ⟨100, 100⟩ 800 1000) 800 1000).y - 100| ≤ 1 / 1000000 := by
  refine ⟨by norm_num, by norm_num, ?_⟩
  exact toScreen_toUnit_roundTrip 800 1000 ⟨100, 100⟩ (by norm_num) (by norm_num)
    (by norm_num) (by norm_num) (by norm_num) (by norm_num)

/-- One command of a stored SVG path string, M or L followed by a
coordinate pair. The source stores paths as strings of the shape
M x y L x y ... and transforms them commandwise by regular expression;
the string boundary is modelled as this typed command list. -/
structure SvgCmd where
  moveTo : Bool
  x : ℚ
  y : ℚ
deriving DecidableEq, Repr

/-- Helper for pathOfPoints carrying the running index of the map. -/
def pathOfPointsAux (canvasWidth canvasHeight : ℚ) (i : ℕ) : List Pt → List SvgCmd
  | [] => []
  | p :: rest =>
      ⟨i == 0, p.x / canvasWidth, p.y / canvasHeight⟩ ::
        pathOfPointsAux canvasWidth canvasHeight (i + 1) rest

/-- Path serialization from handleMouseUp: the captured screen-space path
is written commandwise with normalized coordinates, M for the first point
(index 0) and L for the rest. -/
def pathOfPoints (pts : List Pt) (canvasWidth canvasHeight : ℚ) : List SvgCmd :=
  pathOfPointsAux canvasWidth canvasHeight 0 pts

/-- Path composition from renderSavedHighlights: every stored command has
its normalized coordinates multiplied by the current canvas dimensions. -/
def absolutePath (cmds : List SvgCmd) (canvasWidth canvasHeight : ℚ) : List SvgCmd :=
  cmds.map fun c => ⟨c.moveTo, c.x * canvasWidth, c.y * canvasHeight⟩

/-- A stored ink stroke (source: HighlightMark in lib/types.ts; the
created_at timestamp plays no geometric role and is omitted). -/
structure HighlightMark where
  mark_id : String
  page_number : ℤ
  path_data : List SvgCmd
  color : String
  thickness : ℚ
  opacity : ℚ
deriving DecidableEq, Repr

/-- The stroke stored by handleMouseUp for a draw-mode drag from (100,100)
to (200,200) on an 800 by 1000 surface. -/
def strokeZoomMark : HighlightMark :=
  { mark_id := "m1"
    page_number := 1
    path_data := pathOfPoints [⟨100, 100⟩, ⟨200, 200⟩] 800 1000
    color := "#FFF176"
    thickness := 4
    opacity := 2/5 }

/-- C2: Ink-stroke zoom scenario. A stroke drawn from screen (100,100) to
(200,200) on an 800 by 1000 surface is stored normalized; composed on a
1600 by 2000 surface its endpoints are exactly (200,200) and (400,400). -/
theorem ink_zoom_scenario :
    absolutePath strokeZoomMark.path_data 1600 2000 =
      [⟨true, 200, 200⟩, ⟨false, 400, 400⟩] := by
  simp only [strokeZoomMark, pathOfPoints, pathOfPointsAux, absolutePath, List.map_cons,
    List.map_nil, List.cons.injEq, SvgCmd.mk.injEq, and_true, true_and]
  norm_num

/-- A normalized anchor rectangle (source: SelectionBox in lib/types.ts). -/
structure SelectionBox where
  x : ℚ
  y : ℚ
  width : ℚ
  height : ℚ
deriving DecidableEq, Repr

/-- The screen-space quantities renderHighlights computes for one cue
entry: connector polyline abscissas, the shared connector ordinate, and
the badge circle center. -/
structure MarkerLayout where
  isLeftHalf : Bool
  lineY : ℚ
  lineStartX : ℚ
  offsetX : ℚ
  lineEndX : ℚ
  circleX : ℚ
  circleY : ℚ
deriving DecidableEq, Repr

/-- The per-entry geometry of renderHighlights: rectangle converted to
screen space, margin side chosen by comparing the rectangle center with
the page midline, 3-point connector polyline at the rectangle bottom, and
the index badge 15px above the margin endpoint (radius 12 is fixed in the
source and plays no role in the layout positions). -/
def renderHighlightLayout (box : SelectionBox) (canvasWidth canvasHeight : ℚ) :
    MarkerLayout :=
  let textX := box.x * canvasWidth
  let textY := box.y * canvasHeight
  let textWidth := box.width * canvasWidth
  let textHeight := box.height * canvasHeight
  let centerX := textX + textWidth / 2
  let pageMidline := canvasWidth / 2
  let lineY := textY + textHeight
  let horizontalOffset : ℚ := 10
  if centerX < pageMidline then
    { isLeftHalf := true
      lineY := lineY
      lineStartX := textX + textWidth
      offsetX := textX + textWidth + horizontalOffset
      lineEndX := 20
      circleX := 20
      circleY := lineY - 15 }
  else
    { isLeftHalf := false
      lineY := lineY
      lineStartX := textX
      offsetX := textX - horizontalOffset
      lineEndX := canvasWidth - 20
      circleX := canvasWidth - 20
      circleY := lineY - 15 }

/-- The connector polyline as painted: trigger edge, offset point, margin
anchor, all on the shared ordinate. -/
def polylinePoints (l : MarkerLayout) : List Pt :=
  [⟨l.lineStartX, l.lineY⟩, ⟨l.offsetX, l.lineY⟩, ⟨l.lineEndX, l.lineY⟩]

/-- Every composed overlay point of one entry: the three polyline points
followed by the badge center. -/
def composedPoints (box : SelectionBox) (canvasWidth canvasHeight : ℚ) : List Pt :=
  polylinePoints (renderHighlightLayout box canvasWidth canvasHeight) ++
    [⟨(renderHighlightLayout box canvasWidth canvasHeight).circleX,
      (renderHighlightLayout box canvasWidth canvasHeight).circleY⟩]

/-- The scale transform between two raster sizes. -/
def scalePt (w1 h1 w2 h2 : ℚ) (p : Pt) : Pt :=
  ⟨p.x * (w2 / w1), p.y * (h2 / h1)⟩

/-- The zoom-invariance property exactly as the specification states it:
every composed badge and connector point at the second raster size is the
image of the corresponding point at the first size under the scale
transform. -/
def overlayScalesExactly (box : SelectionBox) (w1 h1 w2 h2 : ℚ) : Prop :=
  composedPoints box w2 h2 = (composedPoints box w1 h1).map (scalePt w1 h1 w2 h2)

/-- C3 counterexample: for the marker anchored at the unit rectangle
(0, 0, 1/4, 1/4), composing at 100 by 100 and then at 200 by 200 does not
relate the composed points by the scale transform (2, 2): the badge
center sits at the fixed 20px margin inset at both sizes, where the scale
image of the first badge center would be at x = 40. -/
theorem overlay_scale_invariance_cex :
    ¬ overlayScalesExactly ⟨0, 0, 1/4, 1/4⟩ 100 100 200 200 := by
  intro h
  have hx := congrArg (fun l => (l.getLast?.map Pt.x)) h
  simp only [overlayScalesExactly, composedPoints, polylinePoints, renderHighlightLayout,
    scalePt] at hx
  norm_num [scalePt] at hx

/-- C3 amended: only the rectangle-derived coordinates are preserved under
the scale transform between raster sizes. The margin side is chosen
identically at both sizes; the connector start point (the trigger-edge
point) and the shared connector ordinate are exact scale images; but the
offset point stays a fixed 10px from the scaled trigger edge, the margin
anchor stays at the fixed 20px margin inset, and the badge center stays at
the margin anchor, a fixed 15px above the scaled connector ordinate —
these fixed pixel distances are deliberately not scaled, so those points
are not scale images of one another. -/
theorem overlay_scale_amended (box : SelectionBox) (w1 h1 w2 h2 : ℚ)
    (hw1 : 0 < w1) (hh1 : 0 < h1) (hw2 : 0 < w2) (hh2 : 0 < h2) :
    (renderHighlightLayout box w2 h2).isLeftHalf =
      (renderHighlightLayout box w1 h1).isLeftHalf ∧
    (renderHighlightLayout box w2 h2).lineStartX =
      (renderHighlightLayout box w1 h1).lineStartX * (w2 / w1) ∧
    (renderHighlightLayout box w2 h2).lineY =
      (renderHighlightLayout box w1 h1).lineY * (h2 / h1) ∧
    (renderHighlightLayout box w2 h2).offsetX =
      (renderHighlightLayout box w2 h2).lineStartX +
        (if (renderHighlightLayout box w2 h2).isLeftHalf then 10 else -10) ∧
    (renderHighlightLayout box w2 h2).lineEndX =
      (if (renderHighlightLayout box w2 h2).isLeftHalf then 20 else w2 - 20) ∧
    (renderHighlightLayout box w2 h2).circleX =
      (renderHighlightLayout box w2 h2).lineEndX ∧
    (renderHighlightLayout box w2 h2).circleY =
      (renderHighlightLayout box w2 h2).lineY - 15 := by
  have hw1n : w1 ≠ 0 := ne_of_gt hw1
  have hh1n : h1 ≠ 0 := ne_of_gt hh1
  have closedL : ∀ w h : ℚ, box.x * w + box.width * w / 2 < w / 2 →
      renderHighlightLayout box w h =
        ⟨true, box.y * h + box.height * h, box.x * w + box.width * w,
          box.x * w + box.width * w + 10, 20, 20, box.y * h + box.height * h - 15⟩ := by
    intro w h hc
    simp only [renderHighlightLayout]
    rw [if_pos hc]
  have closedR : ∀ w h : ℚ, ¬ (box.x * w + box.width * w / 2 < w / 2) →
      renderHighlightLayout box w h =
        ⟨false, box.y * h + box.height * h, box.x * w,
          box.x * w - 10, w - 20, w - 20, box.y * h + box.height * h - 15⟩ := by
    intro w h hc
    simp only [renderHighlightLayout]
    rw [if_neg hc]
  have hbranch : ∀ w : ℚ, 0 < w →
      ((box.x * w + box.width * w / 2 < w / 2) ↔ (box.x + box.width / 2 < 1 / 2)) := by
    intro w hw
    have e1 : box.x * w + box.width * w / 2 = (box.x + box.width / 2) * w := by ring
    have e2 : w / 2 = (1 / 2 : ℚ) * w := by ring
    rw [e1, e2]
    exact mul_lt_mul_right hw
  by_cases hc : box.x + box.width / 2 < 1 / 2
  · rw [closedL w1 h1 ((hbranch w1 hw1).mpr hc), closedL w2 h2 ((hbranch w2 hw2).mpr hc)]
    refine ⟨rfl, ?_, ?_, by norm_num, by norm_num, rfl, rfl⟩
    · field_simp
      ring
    · field_simp
      ring
  · have h1c : ¬ (box.x * w1 + box.width * w1 / 2 < w1 / 2) :=
      fun h => hc ((hbranch w1 hw1).mp h)
    have h2c : ¬ (box.x * w2 + box.width * w2 / 2 < w2 / 2) :=
      fun h => hc ((hbranch w2 hw2).mp h)
    rw [closedR w1 h1 h1c, closedR w2 h2 h2c]
    refine ⟨rfl, ?_, ?_, by norm_num [sub_eq_add_neg], by norm_num, rfl, rfl⟩
    · field_simp
      ring
    · field_simp
      ring

/-- Amended zoom-invariance statement instantiated at a concrete marker
and the raster sizes 800 by 1000 and 1600 by 2000. -/
theorem overlay_scale_amended_witness :
    (0 : ℚ) < 800 ∧ (0 : ℚ) < 1000 ∧ (0 : ℚ) < 1600 ∧ (0 : ℚ) < 2000 ∧
    (renderHighlightLayout ⟨1/10, 1/10, 1/5, 1/10⟩ 1600 2000).lineStartX =
      (renderHighlightLayout ⟨1/10, 1/10, 1/5, 1/10⟩ 800 1000).lineStartX * (1600 / 800) := by
  refine ⟨by norm_num, by norm_num, by norm_num, by norm_num, ?_⟩
  exact (overlay_scale_amended ⟨1/10, 1/10, 1/5, 1/10⟩ 800 1000 1600 2000
    (by norm_num) (by norm_num) (by norm_num) (by norm_num)).2.1

/-- The connector polyline exactly as the claim words it, for comparison
with the source geometry: start at the rectangle edge named by the claim
(right edge for a left-margin target, left edge for a right-margin
target), then that point offset 10px in the same direction as the margin
target (toward smaller x for a left-margin target, toward larger x for a
right-margin target), then the fixed point 20px inset from the chosen
margin, all at the bottom edge of the rectangle. -/
def connectorClaimC4 (box : SelectionBox) (canvasWidth canvasHeight : ℚ) : List Pt :=
  let textX := box.x * canvasWidth
  let textWidth := box.width * canvasWidth
  let lineY := (box.y + box.height) * canvasHeight
  if textX + textWidth / 2 < canvasWidth / 2 then
    [⟨textX + textWidth, lineY⟩, ⟨textX + textWidth - 10, lineY⟩, ⟨20, lineY⟩]
  else
    [⟨textX, lineY⟩, ⟨textX + 10, lineY⟩, ⟨canvasWidth - 20, lineY⟩]

/-- C4 counterexample: for the marker at unit rectangle
(1/10, 1/10, 1/5, 1/10) on an 800 by 1000 surface (a left-margin target),
the painted polyline offsets its middle point 10px to the right of the
trigger edge (away from the rectangle, x = 250), not 10px in the
direction of the left margin target as the claim states (x = 230). -/
theorem connector_claim_cex :
    polylinePoints (renderHighlightLayout ⟨1/10, 1/10, 1/5, 1/10⟩ 800 1000) ≠
      connectorClaimC4 ⟨1/10, 1/10, 1/5, 1/10⟩ 800 1000 := by
  intro h
  have hmid := congrArg (fun l => ((l.get? 1).map Pt.x)) h
  simp only [connectorClaimC4, polylinePoints, renderHighlightLayout] at hmid
  norm_num at hmid

/-- C4 amended: for every marker, the connector is a 3-point horizontal
polyline whose shared y is the screen-space bottom edge of the anchor
rectangle; the margin target is left iff the rectangle's screen-space
horizontal center is less than pixelWidth/2; the polyline starts at the
rectangle edge on the far side from the chosen margin (right edge for a
left-margin target, left edge for a right-margin target), passes through
that point offset 10px further away from the rectangle — that is, in the
direction opposite the margin target — and ends at the fixed point 20px
inset from the chosen margin. -/
theorem connector_geometry_amended (box : SelectionBox) (canvasWidth canvasHeight : ℚ) :
    polylinePoints (renderHighlightLayout box canvasWidth canvasHeight) =
      (if box.x * canvasWidth + box.width * canvasWidth / 2 < canvasWidth / 2 then
        [⟨box.x * canvasWidth + box.width * canvasWidth,
            box.y * canvasHeight + box.height * canvasHeight⟩,
          ⟨box.x * canvasWidth + box.width * canvasWidth + 10,
            box.y * canvasHeight + box.height * canvasHeight⟩,
          ⟨20, box.y * canvasHeight + box.height * canvasHeight⟩]
      else
        [⟨box.x * canvasWidth, box.y * canvasHeight + box.height * canvasHeight⟩,
          ⟨box.x * canvasWidth - 10, box.y * canvasHeight + box.height * canvasHeight⟩,
          ⟨canvasWidth - 20, box.y * canvasHeight + box.height * canvasHeight⟩]) ∧
    ((renderHighlightLayout box canvasWidth canvasHeight).isLeftHalf = true ↔
      box.x * canvasWidth + box.width * canvasWidth / 2 < canvasWidth / 2) := by
  by_cases hc : box.x * canvasWidth + box.width * canvasWidth / 2 < canvasWidth / 2
  · constructor
    · simp only [renderHighlightLayout, polylinePoints]
      rw [if_pos hc, if_pos hc]
    · simp only [renderHighlightLayout]
      rw [if_pos hc]
      simp [hc]
  · constructor
    · simp only [renderHighlightLayout, polylinePoints]
      rw [if_neg hc, if_neg hc]
    · simp only [renderHighlightLayout]
      rw [if_neg hc]
      simp [hc]

/-- A cue entry (source: BlockingEntry in lib/types.ts). The cue_type
field carries the source field annotation_type, a member of the closed
category list of lib/annotation-types.ts; the selection_type and
selection_text fields, the timestamps and the deprecated color field are
irrelevant to validation and repository keys and omitted. -/
structure BlockingEntry where
  entry_id : String
  script_id : String
  page_number : ℤ
  index_number : ℤ
  selection_box : SelectionBox
  blocking_text : String
  cue_type : String
deriving DecidableEq, Repr

/-- JS truthiness of text.trim(): the trimmed string is empty exactly when
every character of the string is whitespace; this form is used because it
is structurally computable. -/
def trimmedEmpty (s : String) : Bool := s.data.all Char.isWhitespace

/-- Validation failure of a cue save path. -/
inductive SaveError where
  | emptyText
  | invalidIndex
  | duplicateIndex
deriving DecidableEq, Repr

/-- AddBlockingDialog.handleSave: reject empty cue text, then an
indexNumber below 1, then an indexNumber already used on this page, in
the source order; on success the payload is handed to onSave. -/
def dialogHandleSave (blockingText : String) (indexNumber : ℤ)
    (existingIndices : List ℤ) : Except SaveError (String × ℤ) :=
  if trimmedEmpty blockingText then .error .emptyText
  else if indexNumber < 1 then .error .invalidIndex
  else if indexNumber ∈ existingIndices then .error .duplicateIndex
  else .ok (blockingText, indexNumber)

/-- BlockingChart.handleSaveEdit: with empty text the edit is silently
dropped; if the index changed, a collision with another live entry of the
passed page-scoped list is rejected; otherwise the updated entry is
handed to onUpdateEntry. There is no check against index numbers below
one on this path. -/
def chartHandleSaveEdit (entries : List BlockingEntry) (entry : BlockingEntry)
    (editText : String) (editIndex : ℤ) (editType : String) :
    Option BlockingEntry :=
  if trimmedEmpty editText then none
  else if editIndex ≠ entry.index_number ∧
      entries.any (fun e => e.entry_id ≠ entry.entry_id ∧ e.index_number = editIndex) then
    none
  else
    some { entry with blocking_text := editText, index_number := editIndex,
                      cue_type := editType }

/-- CuePreview.handleSave: reject a changed index colliding with the
page-scoped index list, then an index below 1, then empty text, in the
source order; on success the updated entry is persisted. -/
def previewHandleSave (existingIndices : List ℤ) (entry : BlockingEntry)
    (editText : String) (editIndex : ℤ) (editType : String) :
    Option BlockingEntry :=
  if editIndex ≠ entry.index_number ∧ editIndex ∈ existingIndices then none
  else if editIndex < 1 then none
  else if trimmedEmpty editText then none
  else
    some { entry with index_number := editIndex, cue_type := editType,
                      blocking_text := editText }

/-- One row of the blocking_entries table: the user_id column written at
save time next to the entry columns (source: saveBlockingEntry in
src/actions/entries.ts writes user_id alongside the BlockingEntry
fields). -/
structure EntryRow where
  user_id : String
  entry : BlockingEntry
deriving DecidableEq, Repr

/-- saveBlockingEntry (src/actions/entries.ts): a keyed upsert into the
blocking_entries table writing every column including user_id; a row
with the same primary key entry_id is replaced, otherwise the row is
inserted. -/
def saveBlockingEntry (table : List EntryRow) (e : BlockingEntry) (userId : String) :
    List EntryRow :=
  if table.any (fun r => r.entry.entry_id = e.entry_id) then
    table.map (fun r => if r.entry.entry_id = e.entry_id then ⟨userId, e⟩ else r)
  else table ++ [⟨userId, e⟩]

/-- Insertion into a list kept ascending in index_number, placing a new
entry after existing entries with the same index number. -/
def insertByIndexNumber (e : BlockingEntry) : List BlockingEntry → List BlockingEntry
  | [] => [e]
  | x :: xs =>
      if e.index_number < x.index_number then e :: x :: xs
      else x :: insertByIndexNumber e xs

/-- The order clause of getEntriesForPage: ascending in index_number.
SQL leaves the relative order of equal keys unspecified; the model fixes
the stable insertion sort, and no settled claim depends on tie order. -/
def orderByIndexNumber : List BlockingEntry → List BlockingEntry
  | [] => []
  | x :: xs => insertByIndexNumber x (orderByIndexNumber xs)

/-- getEntriesForPage (src/actions/entries.ts): the rows of the
blocking_entries table filtered by script_id, page_number and user_id,
ordered by index_number ascending. On a query error the source degrades
to the empty list; the model is the no-error path. -/
def getEntriesForPage (table : List EntryRow) (scriptId : String) (pageNumber : ℤ)
    (userId : String) : List BlockingEntry :=
  orderByIndexNumber
    ((table.filter (fun r =>
      r.entry.script_id = scriptId ∧ r.entry.page_number = pageNumber ∧
        r.user_id = userId)).map (·.entry))

/-- The creation pipeline of BlockingPage: the dialog validates against
the index numbers of the current page's loaded entries
(getEntriesForPage for the current script, page and user) and, only on
success, handleSaveNewEntry persists the new entry via
saveBlockingEntry. -/
def saveNewEntryFlow (table : List EntryRow) (scriptId : String) (page : ℤ)
    (userId : String) (newId : String) (box : SelectionBox) (text : String)
    (idx : ℤ) (ty : String) : Except SaveError (List EntryRow) :=
  match dialogHandleSave text idx
      ((getEntriesForPage table scriptId page userId).map (·.index_number)) with
  | .error e => .error e
  | .ok _ =>
      .ok (saveBlockingEntry table
        { entry_id := newId, script_id := scriptId, page_number := page,
          index_number := idx, selection_box := box, blocking_text := text,
          cue_type := ty } userId)

/-- A live entry with index 1 on page 2 of script s1, for the
counterexample below. -/
def c5entry : BlockingEntry :=
  ⟨"e1", "s1", 2, 1, ⟨0, 0, 0, 0⟩, "cross left", "Blocking"⟩

/-- C5 counterexample: the chart edit path does not reject an index
number below 1. Editing the sole live entry of its page to index 0 with
nonempty text is accepted (the updated entry is handed on), although the
claim requires a synchronous rejection on every save path. -/
theorem chart_edit_invalid_index_cex :
    (0 : ℤ) < 1 ∧
    chartHandleSaveEdit [c5entry] c5entry "moved" 0 "Blocking" =
      some { c5entry with blocking_text := "moved", index_number := 0,
                          cue_type := "Blocking" } := by
  constructor
  · norm_num
  · simp only [chartHandleSaveEdit, c5entry]
    rw [if_neg (by decide), if_neg (by decide)]

/-- C5 amended: index validation before mutation, as the code enforces it.
On the creation path, a page-scoped duplicate index and an index below 1
are each rejected synchronously with the store left unchanged, and
uniqueness is page-scoped: an index used only on a different page is
accepted and the new entry persisted. On the preview edit path, an index
below 1 is always rejected and a changed index colliding with the
page-scoped index list is rejected. On the chart edit path only the
page-scoped duplicate check is performed (a changed index colliding with
another live entry is rejected); an index below 1 is not rejected there. -/
theorem index_validation_amended :
    (∀ (table : List EntryRow) (scriptId : String) (page : ℤ) (userId : String)
        (newId : String) (box : SelectionBox) (text : String) (idx : ℤ) (ty : String),
      (idx < 1 ∨
          idx ∈ (getEntriesForPage table scriptId page userId).map (·.index_number)) →
        ∃ err, saveNewEntryFlow table scriptId page userId newId box text idx ty =
          .error err) ∧
    (∀ (table : List EntryRow) (scriptId : String) (page : ℤ) (userId : String)
        (newId : String) (box : SelectionBox) (text : String) (idx : ℤ) (ty : String),
      trimmedEmpty text = false → 1 ≤ idx →
      idx ∉ (getEntriesForPage table scriptId page userId).map (·.index_number) →
        saveNewEntryFlow table scriptId page userId newId box text idx ty =
          .ok (saveBlockingEntry table
            { entry_id := newId, script_id := scriptId, page_number := page,
              index_number := idx, selection_box := box, blocking_text := text,
              cue_type := ty } userId)) ∧
    (∀ (existingIndices : List ℤ) (entry : BlockingEntry) (text : String)
        (idx : ℤ) (ty : String),
      (idx < 1 ∨ (idx ≠ entry.index_number ∧ idx ∈ existingIndices)) →
        previewHandleSave existingIndices entry text idx ty = none) ∧
    (∀ (entries : List BlockingEntry) (entry : BlockingEntry) (text : String)
        (idx : ℤ) (ty : String),
      idx ≠ entry.index_number →
      entries.any (fun e => e.entry_id ≠ entry.entry_id ∧ e.index_number = idx) = true →
        chartHandleSaveEdit entries entry text idx ty = none) := by
  refine ⟨?_, ?_, ?_, ?_⟩
  · intro table scriptId page userId newId box text idx ty hbad
    unfold saveNewEntryFlow dialogHandleSave
    rcases hbad with hlt | hdup
    · by_cases ht : trimmedEmpty text
      · rw [if_pos ht]
        exact ⟨.emptyText, rfl⟩
      · rw [if_neg ht, if_pos hlt]
        exact ⟨.invalidIndex, rfl⟩
    · by_cases ht : trimmedEmpty text
      · rw [if_pos ht]
        exact ⟨.emptyText, rfl⟩
      · rw [if_neg ht]
        by_cases hlt : idx < 1
        · rw [if_pos hlt]
          exact ⟨.invalidIndex, rfl⟩
        · rw [if_neg hlt, if_pos hdup]
          exact ⟨.duplicateIndex, rfl⟩
  · intro table scriptId page userId newId box text idx ty ht hge hnotin
    unfold saveNewEntryFlow dialogHandleSave
    rw [if_neg (by simp [ht]), if_neg (by omega), if_neg hnotin]
  · intro existingIndices entry text idx ty hbad
    unfold previewHandleSave
    rcases hbad with hlt | hdup
    · by_cases hd : idx ≠ entry.index_number ∧ idx ∈ existingIndices
      · rw [if_pos hd]
      · rw [if_neg hd, if_pos hlt]
    · rw [if_pos hdup]
  · intro entries entry text idx ty hne hdup
    unfold chartHandleSaveEdit
    by_cases ht : trimmedEmpty text
    · rw [if_pos ht]
    · rw [if_neg ht, if_pos ⟨hne, hdup⟩]

/-- The amended validation behavior exercised on page-scoped concrete
data: with the sole table row holding the index-1 entry on page 2 of
script s1 for user u1, creating index 1 on page 2 is rejected as a
duplicate, creating index 0 on page 2 is rejected, and creating index 1
on page 3 succeeds and persists. -/
theorem index_validation_amended_witness :
    (∃ err, saveNewEntryFlow [⟨"u1", c5entry⟩] "s1" 2 "u1" "e2" ⟨0, 0, 0, 0⟩
      "enter stage" 1 "Blocking" = .error err) ∧
    (∃ err, saveNewEntryFlow [⟨"u1", c5entry⟩] "s1" 2 "u1" "e2" ⟨0, 0, 0, 0⟩
      "enter stage" 0 "Blocking" = .error err) ∧
    saveNewEntryFlow [⟨"u1", c5entry⟩] "s1" 3 "u1" "e2" ⟨0, 0, 0, 0⟩
        "enter stage" 1 "Blocking" =
      .ok (saveBlockingEntry [⟨"u1", c5entry⟩]
        { entry_id := "e2", script_id := "s1", page_number := 3, index_number := 1,
          selection_box := ⟨0, 0, 0, 0⟩, blocking_text := "enter stage",
          cue_type := "Blocking" } "u1") ∧
    previewHandleSave [1] c5entry "enter stage" 0 "Blocking" = none ∧
    chartHandleSaveEdit [c5entry, { c5entry with entry_id := "e9", index_number := 7 }]
      c5entry "enter stage" 7 "Blocking" = none := by
  refine ⟨?_, ?_, ?_, ?_, ?_⟩
  · exact index_validation_amended.1 [⟨"u1", c5entry⟩] "s1" 2 "u1" "e2" ⟨0, 0, 0, 0⟩
      "enter stage" 1 "Blocking" (Or.inr (by decide))
  · exact index_validation_amended.1 [⟨"u1", c5entry⟩] "s1" 2 "u1" "e2" ⟨0, 0, 0, 0⟩
      "enter stage" 0 "Blocking" (Or.inl (by decide))
  · exact index_validation_amended.2.1 [⟨"u1", c5entry⟩] "s1" 3 "u1" "e2" ⟨0, 0, 0, 0⟩
      "enter stage" 1 "Blocking" (by decide) (by decide) (by decide)
  · exact index_validation_amended.2.2.1 [1] c5entry "enter stage" 0 "Blocking"
      (Or.inl (by decide))
  · exact index_validation_amended.2.2.2
      [c5entry, { c5entry with entry_id := "e9", index_number := 7 }] c5entry
      "enter stage" 7 "Blocking" (by decide) (by decide)

/-- The coordinate pairs a stored path yields when handleEraseAtPoint
reads all numbers of the path string pairwise: exactly the coordinates of
its commands. -/
def pathPoints (cmds : List SvgCmd) : List Pt :=
  cmds.map fun c => ⟨c.x, c.y⟩

/-- Squared Euclidean distance. The source compares
Math.sqrt((px-nx)^2 + (py-ny)^2) < threshold; with both sides nonnegative
this is equivalent to comparing the squares, which stays inside ℚ. -/
def distSq (p q : Pt) : ℚ :=
  (p.x - q.x) ^ 2 + (p.y - q.y) ^ 2

/-- The per-point proximity test of handleEraseAtPoint with its fixed
normalized threshold 0.02. -/
def nearPoint (q p : Pt) : Bool :=
  distSq p q < (2 / 100) ^ 2

/-- A stored stroke is hit when some point of its parsed path is within
the threshold of the query point. -/
def markHit (q : Pt) (m : HighlightMark) : Bool :=
  (pathPoints m.path_data).any (nearPoint q)

/-- The scan of handleEraseAtPoint: walk the stroke list in order and
stop at the first stroke with a path point within the threshold. -/
def eraseScan (q : Pt) : List HighlightMark → Option HighlightMark
  | [] => none
  | m :: rest => if markHit q m then some m else eraseScan q rest

/-- handleEraseAtPoint: the query point is normalized against the canvas
dimensions, then the stroke list is scanned in order. -/
def handleEraseAtPoint (x y canvasWidth canvasHeight : ℚ)
    (highlights : List HighlightMark) : Option HighlightMark :=
  eraseScan ⟨x / canvasWidth, y / canvasHeight⟩ highlights

/-- The stroke list after an erase hit: the found stroke is deleted by id
via the repository and the page is reloaded; with no hit nothing
changes. -/
def highlightsAfterErase (x y canvasWidth canvasHeight : ℚ)
    (highlights : List HighlightMark) : List HighlightMark :=
  match handleEraseAtPoint x y canvasWidth canvasHeight highlights with
  | some m => highlights.filter (fun h => h.mark_id ≠ m.mark_id)
  | none => highlights

/-- A stroke whose points form the straight line from (0,0) to (1,1) in
unit space, sampled at eleven equally spaced points. -/
def diagMark : HighlightMark :=
  { mark_id := "diag"
    page_number := 1
    path_data :=
      [⟨true, 0, 0⟩, ⟨false, 1/10, 1/10⟩, ⟨false, 2/10, 2/10⟩, ⟨false, 3/10, 3/10⟩,
        ⟨false, 4/10, 4/10⟩, ⟨false, 5/10, 5/10⟩, ⟨false, 6/10, 6/10⟩,
        ⟨false, 7/10, 7/10⟩, ⟨false, 8/10, 8/10⟩, ⟨false, 9/10, 9/10⟩, ⟨false, 1, 1⟩]
    color := "#FFF176"
    thickness := 4
    opacity := 2/5 }

/-- The diagonal stroke has a path point within the threshold of the
normalized query point (0.5, 0.5). -/
lemma diagMark_hit : markHit ⟨400 / 800, 500 / 1000⟩ diagMark = true := by
  norm_num [markHit, diagMark, pathPoints, nearPoint, distSq]

/-- No path point of the diagonal stroke is within the threshold of the
normalized query point (0.9, 0.1). -/
lemma diagMark_miss : markHit ⟨720 / 800, 100 / 1000⟩ diagMark = false := by
  norm_num [markHit, diagMark, pathPoints, nearPoint, distSq]

/-- The erase scan at screen (400,500) on the 800 by 1000 surface finds
the diagonal stroke. -/
lemma eraseAt_diagMark :
    handleEraseAtPoint 400 500 800 1000 [diagMark] = some diagMark := by
  simp [handleEraseAtPoint, eraseScan, diagMark_hit]

/-- C6: Erase proximity. The erase hit-test scans strokes in list order
and returns the first stroke having a path point within the normalized
threshold 0.02 of the normalized query point, or nothing (the find-first
characterization); the diagonal stroke from (0,0) to (1,1) is deleted by
an erase hit at screen (400,500) on an 800 by 1000 surface, which
normalizes to (0.5,0.5), and is not deleted by a hit at (720,100), which
normalizes to (0.9,0.1). -/
theorem erase_proximity :
    (∀ (q : Pt) (hs : List HighlightMark), eraseScan q hs = hs.find? (markHit q)) ∧
    handleEraseAtPoint 400 500 800 1000 [diagMark] = some diagMark ∧
    highlightsAfterErase 400 500 800 1000 [diagMark] = [] ∧
    handleEraseAtPoint 720 100 800 1000 [diagMark] = none ∧
    highlightsAfterErase 720 100 800 1000 [diagMark] = [diagMark] := by
  have hfind : ∀ (q : Pt) (hs : List HighlightMark), eraseScan q hs = hs.find? (markHit q) := by
    intro q hs
    induction hs with
    | nil => rfl
    | cons m rest ih =>
        by_cases hm : markHit q m
        · simp [eraseScan, List.find?, hm]
        · simp only [eraseScan, List.find?]
          rw [if_neg hm, Bool.eq_false_iff.mpr hm]
          exact ih
  have hhit := diagMark_hit
  have hmiss := diagMark_miss
  refine ⟨hfind, ?_, ?_, ?_, ?_⟩
  · show eraseScan ⟨400 / 800, 500 / 1000⟩ [diagMark] = some diagMark
    simp [eraseScan, hhit]
  · show highlightsAfterErase 400 500 800 1000 [diagMark] = []
    unfold highlightsAfterErase
    show (match handleEraseAtPoint 400 500 800 1000 [diagMark] with
      | some m => [diagMark].filter (fun h => h.mark_id ≠ m.mark_id)
      | none => [diagMark]) = []
    rw [show handleEraseAtPoint 400 500 800 1000 [diagMark] = some diagMark from by
      simp [handleEraseAtPoint, eraseScan, hhit]]
    simp [diagMark]
  · show eraseScan ⟨720 / 800, 100 / 1000⟩ [diagMark] = none
    simp [eraseScan, hmiss]
  · show highlightsAfterErase 720 100 800 1000 [diagMark] = [diagMark]
    unfold highlightsAfterErase
    rw [show handleEraseAtPoint 720 100 800 1000 [diagMark] = none from by
      simp [handleEraseAtPoint, eraseScan, hmiss]]

/-- The ink-related component state of PDFViewer: the loaded strokes of
the current page and the undo history of stroke ids. -/
structure ViewerInkState where
  highlights : List HighlightMark
  highlightHistory : List String
deriving DecidableEq, Repr

/-- The repository delete (deleteHighlightMark) on the page-scoped store:
remove the stroke with the given id; deleting an absent id leaves the
store unchanged. -/
def deleteMark (store : List HighlightMark) (markId : String) : List HighlightMark :=
  store.filter (fun m => m.mark_id ≠ markId)

/-- The push of handleMouseUp after a stroke is saved:
setHighlightHistory(prev concatenated with the new mark id). -/
def pushHistory (st : ViewerInkState) (markId : String) : ViewerInkState :=
  { st with highlightHistory := st.highlightHistory ++ [markId] }

/-- handleUndoHighlight: a no-op on an empty history; otherwise the last
id of the history is popped, its stroke deleted via the repository, and
the page reloaded. Returns the new store, the new component state and the
id whose delete was issued. -/
def handleUndoHighlight (store : List HighlightMark) (st : ViewerInkState) :
    List HighlightMark × ViewerInkState × Option String :=
  match st.highlightHistory.getLast? with
  | none => (store, st, none)
  | some lastId =>
      let store1 := deleteMark store lastId
      (store1, ⟨store1, st.highlightHistory.dropLast⟩, some lastId)

/-- The page-load effect: strokes of the now-current page are fetched and
the undo history is reset. -/
def loadHighlightsEffect (pageStore : List HighlightMark) : ViewerInkState :=
  ⟨pageStore, []⟩

/-- handleClearAllHighlights: every currently loaded stroke is deleted
from the repository, the page reloaded and the undo history cleared. -/
def handleClearAllHighlights (store : List HighlightMark) (st : ViewerInkState) :
    List HighlightMark × ViewerInkState :=
  let store1 := st.highlights.foldl (fun s m => deleteMark s m.mark_id) store
  (store1, ⟨store1, []⟩)

/-- C7: Undo LIFO. After stroke ids a, b, c are pushed in that order onto
an empty history, three successive undos issue repository deletes in the
order c, b, a, and a fourth undo on the emptied history is a no-op; the
history is reset to empty by the page-change load effect and by the
explicit clear-page action. -/
theorem undo_lifo (a b c : String) (store : List HighlightMark) :
    let st3 := pushHistory (pushHistory (pushHistory ⟨store, []⟩ a) b) c
    let u1 := handleUndoHighlight store st3
    let u2 := handleUndoHighlight u1.1 u1.2.1
    let u3 := handleUndoHighlight u2.1 u2.2.1
    let u4 := handleUndoHighlight u3.1 u3.2.1
    st3.highlightHistory = [a, b, c] ∧
    u1.2.2 = some c ∧ u2.2.2 = some b ∧ u3.2.2 = some a ∧
    u4.2.2 = none ∧ u4.1 = u3.1 ∧ u4.2.1 = u3.2.1 ∧
    (∀ pageStore : List HighlightMark,
      (loadHighlightsEffect pageStore).highlightHistory = []) ∧
    (∀ (s : List HighlightMark) (st : ViewerInkState),
      (handleClearAllHighlights s st).2.highlightHistory = []) := by
  refine ⟨rfl, rfl, rfl, rfl, rfl, rfl, rfl, fun _ => rfl, fun _ _ => rfl⟩

/-- The erase handler's effect on the component state: on a hit the
stroke is deleted from the repository and the page reloaded; the undo
history is left untouched in both cases. -/
def eraseEffect (x y canvasWidth canvasHeight : ℚ) (store : List HighlightMark)
    (st : ViewerInkState) : List HighlightMark × ViewerInkState :=
  match handleEraseAtPoint x y canvasWidth canvasHeight store with
  | some m =>
      let store1 := deleteMark store m.mark_id
      (store1, ⟨store1, st.highlightHistory⟩)
  | none => (store, st)

/-- C10: Undo after erase is a no-op on live strokes. An erase hit
deletes a stroke without removing its id from the undo history; a
subsequent undo with that id on top pops the id and issues a repository
delete for the already-absent stroke, leaving the live strokes unchanged
and only the history shorter by one entry. -/
theorem undo_after_erase (x y canvasWidth canvasHeight : ℚ)
    (store : List HighlightMark) (hist : List String) (m : HighlightMark)
    (hfound : handleEraseAtPoint x y canvasWidth canvasHeight store = some m) :
    let st0 : ViewerInkState := ⟨store, hist ++ [m.mark_id]⟩
    let afterErase := eraseEffect x y canvasWidth canvasHeight store st0
    let afterUndo := handleUndoHighlight afterErase.1 afterErase.2
    afterErase.2.highlightHistory = hist ++ [m.mark_id] ∧
    afterUndo.2.2 = some m.mark_id ∧
    afterUndo.1 = afterErase.1 ∧
    afterUndo.2.1.highlights = afterErase.1 ∧
    afterUndo.2.1.highlightHistory = hist := by
  intro st0 afterErase afterUndo
  have hE : afterErase = (deleteMark store m.mark_id,
      ⟨deleteMark store m.mark_id, hist ++ [m.mark_id]⟩) := by
    show eraseEffect x y canvasWidth canvasHeight store st0 = _
    unfold eraseEffect
    rw [hfound]
  have hlast : (hist ++ [m.mark_id]).getLast? = some m.mark_id := by
    simp [List.getLast?_append]
  have hdrop : (hist ++ [m.mark_id]).dropLast = hist := by
    simp
  have hidem : deleteMark (deleteMark store m.mark_id) m.mark_id =
      deleteMark store m.mark_id := by
    unfold deleteMark
    rw [List.filter_filter]
    simp
  have hU : afterUndo = (deleteMark store m.mark_id,
      ⟨deleteMark store m.mark_id, hist⟩, some m.mark_id) := by
    show handleUndoHighlight afterErase.1 afterErase.2 = _
    rw [hE]
    unfold handleUndoHighlight
    simp only [hlast, hdrop, hidem]
  rw [hE, hU]
  exact ⟨rfl, rfl, rfl, rfl, rfl⟩

/-- Undo-after-erase exercised on concrete data: the diagonal stroke is
erased by a hit at its midpoint and the following undo pops its id while
leaving the (now empty) live stroke list unchanged. -/
theorem undo_after_erase_witness :
    handleEraseAtPoint 400 500 800 1000 [diagMark] = some diagMark ∧
    (let st0 : ViewerInkState := ⟨[diagMark], [] ++ [diagMark.mark_id]⟩
     let afterErase := eraseEffect 400 500 800 1000 [diagMark] st0
     let afterUndo := handleUndoHighlight afterErase.1 afterErase.2
     afterErase.2.highlightHistory = [] ++ [diagMark.mark_id] ∧
     afterUndo.2.2 = some diagMark.mark_id ∧
     afterUndo.1 = afterErase.1 ∧
     afterUndo.2.1.highlights = afterErase.1 ∧
     afterUndo.2.1.highlightHistory = []) := by
  have hfound : handleEraseAtPoint 400 500 800 1000 [diagMark] = some diagMark :=
    eraseAt_diagMark
  exact ⟨hfound, undo_after_erase 400 500 800 1000 [diagMark] [] diagMark hfound⟩

/-- The selection-completed event handed to onClickComplete. The
text-scan over the DOM text layer is browser state orthogonal to the
geometry and is not modelled; the selectionText field is accordingly
omitted here. -/
structure SelectionEvent where
  pageNumber : ℤ
  selectionBox : SelectionBox
deriving DecidableEq, Repr

/-- The annotation-selection branch of handleMouseUp: it bails out when
no drag is active or an endpoint is missing; otherwise it computes the
axis-aligned bounding rectangle of the drag endpoints, normalizes it
against the canvas dimensions and always emits the completed event. -/
def handleMouseUpSelection (isDrawing : Bool) (selectionStart selectionEnd : Option Pt)
    (canvasWidth canvasHeight : ℚ) (currentPage : ℤ) : Option SelectionEvent :=
  if isDrawing = false then none
  else
    match selectionStart, selectionEnd with
    | some s, some e =>
        let x1 := min s.x e.x
        let y1 := min s.y e.y
        let x2 := max s.x e.x
        let y2 := max s.y e.y
        some ⟨currentPage,
          ⟨x1 / canvasWidth, y1 / canvasHeight,
            (x2 - x1) / canvasWidth, (y2 - y1) / canvasHeight⟩⟩
    | _, _ => none

/-- C8: Degenerate selection. A drag that starts and ends at the same
point still emits a selection-completed event, and the drag from (50,50)
to (50,50) on an 800 by 1000 surface emits exactly the normalized region
x = 0.0625, y = 0.05, width = 0, height = 0. -/
theorem degenerate_selection :
    (∀ (p : Pt) (w h : ℚ) (page : ℤ),
      (handleMouseUpSelection true (some p) (some p) w h page).isSome = true) ∧
    handleMouseUpSelection true (some ⟨50, 50⟩) (some ⟨50, 50⟩) 800 1000 1 =
      some ⟨1, ⟨1/16, 1/20, 0, 0⟩⟩ := by
  constructor
  · intro p w h page
    rfl
  · unfold handleMouseUpSelection
    norm_num

/-- The render-lifecycle state of PDFViewer: the in-flight render task
reference (renderTaskRef, as a task id), the set of tasks whose cancel
was called, a fresh-id counter, the canvas dimensions (set synchronously
at render start, before the task is awaited) and pageRenderKey. -/
structure RendererState where
  inFlight : Option ℕ
  canceled : List ℕ
  nextId : ℕ
  canvasW : ℕ
  canvasH : ℕ
  pageRenderKey : ℕ
deriving DecidableEq, Repr

/-- The events of the render lifecycle: renderPage is invoked with new
dimensions; an issued render task settles; the entries or highlights
state changes, re-running the overlay effect. -/
inductive REvent where
  | startRender (w h : ℕ)
  | completeRender (id : ℕ)
  | changeHighlights
deriving DecidableEq, Repr

/-- Observable overlay activity: the render-complete signal (the
pageRenderKey increment) and an overlay repaint, each tagged with the
canvas dimensions current when it happens. -/
inductive LogEntry where
  | signal (w h : ℕ)
  | repaint (w h : ℕ)
deriving DecidableEq, Repr

/-- One step of the render lifecycle, from the source. startRender
(renderPage): any in-flight task is canceled, the canvas is resized to
the new dimensions before the new task is awaited. completeRender: if the
settled task is still the in-flight one, pageRenderKey is incremented and
the overlay effect repaints at the current canvas dimensions; a canceled
task settles with RenderingCancelledException, which is swallowed
without a key increment or repaint. changeHighlights: the overlay effect
re-runs because its dependencies changed, and repaints at the current
canvas dimensions whenever pageRenderKey is positive. -/
def step (s : RendererState) : REvent → RendererState × List LogEntry
  | .startRender w h =>
      ({ inFlight := some s.nextId
         canceled := match s.inFlight with
                     | some j => j :: s.canceled
                     | none => s.canceled
         nextId := s.nextId + 1
         canvasW := w
         canvasH := h
         pageRenderKey := s.pageRenderKey }, [])
  | .completeRender i =>
      if s.inFlight = some i then
        ({ s with inFlight := none, pageRenderKey := s.pageRenderKey + 1 },
          [.signal s.canvasW s.canvasH, .repaint s.canvasW s.canvasH])
      else (s, [])
  | .changeHighlights =>
      (s, if 0 < s.pageRenderKey then [.repaint s.canvasW s.canvasH] else [])

/-- The initial render-lifecycle state: nothing in flight, zero-sized
canvas, pageRenderKey zero. -/
def initRendererState : RendererState := ⟨none, [], 0, 0, 0, 0⟩

/-- Run the render lifecycle from a state over an event trace, collecting
the observable log. -/
def runRendererFrom (s : RendererState) : List REvent → RendererState × List LogEntry
  | [] => (s, [])
  | e :: es =>
      let p := step s e
      let q := runRendererFrom p.1 es
      (q.1, p.2 ++ q.2)

/-- Run the render lifecycle from the initial state. -/
def runRenderer (tr : List REvent) : RendererState × List LogEntry :=
  runRendererFrom initRendererState tr

/-- Reachable-state invariant: canceled ids and the in-flight id are
below the fresh counter, and the in-flight task is never canceled. -/
def RendererInv (s : RendererState) : Prop :=
  (∀ j ∈ s.canceled, j < s.nextId) ∧
  ∀ j, s.inFlight = some j → j < s.nextId ∧ j ∉ s.canceled

lemma rendererInv_init : RendererInv initRendererState := by
  constructor
  · intro j hj
    simp [initRendererState] at hj
  · intro j hj
    simp [initRendererState] at hj

lemma rendererInv_step (s : RendererState) (h : RendererInv s) (e : REvent) :
    RendererInv (step s e).1 := by
  cases e with
  | startRender w hgt =>
      cases hif : s.inFlight with
      | none =>
          have hstep : (step s (.startRender w hgt)).1 =
              ⟨some s.nextId, s.canceled, s.nextId + 1, w, hgt, s.pageRenderKey⟩ := by
            simp [step, hif]
          rw [hstep]
          refine ⟨?_, ?_⟩
          · intro j hj
            exact Nat.lt_succ_of_lt (h.1 j hj)
          · intro j hj
            injection hj with hj
            subst hj
            exact ⟨Nat.lt_succ_self _, fun hin => Nat.lt_irrefl _ (h.1 _ hin)⟩
      | some k =>
          have hstep : (step s (.startRender w hgt)).1 =
              ⟨some s.nextId, k :: s.canceled, s.nextId + 1, w, hgt, s.pageRenderKey⟩ := by
            simp [step, hif]
          rw [hstep]
          refine ⟨?_, ?_⟩
          · intro j hj
            rcases List.mem_cons.mp hj with hj | hj
            · subst hj
              exact Nat.lt_succ_of_lt (h.2 j hif).1
            · exact Nat.lt_succ_of_lt (h.1 j hj)
          · intro j hj
            injection hj with hj
            subst hj
            refine ⟨Nat.lt_succ_self _, ?_⟩
            intro hin
            rcases List.mem_cons.mp hin with hin | hin
            · exact Nat.lt_irrefl _ (hin ▸ (h.2 k hif).1)
            · exact Nat.lt_irrefl _ (h.1 _ hin)
  | completeRender i =>
      by_cases hif : s.inFlight = some i
      · simp only [step, if_pos hif]
        refine ⟨h.1, ?_⟩
        intro j hj
        simp at hj
      · simp only [step, if_neg hif]
        exact h
  | changeHighlights =>
      simp only [step]
      exact h

lemma rendererInv_runFrom (s : RendererState) (h : RendererInv s) (tr : List REvent) :
    RendererInv (runRendererFrom s tr).1 := by
  induction tr generalizing s with
  | nil => exact h
  | cons e es ih =>
      simp only [runRendererFrom]
      exact ih (step s e).1 (rendererInv_step s h e)

lemma rendererInv_run (tr : List REvent) : RendererInv (runRenderer tr).1 :=
  rendererInv_runFrom initRendererState rendererInv_init tr

/-- The last conjunct of the claim, as stated: in a given observable log,
no repaint at the given dimensions appears before the first signal at
those dimensions. -/
def repaintBeforeSignal (w h : ℕ) : List LogEntry → Bool
  | [] => false
  | .signal w2 h2 :: rest =>
      if w2 = w ∧ h2 = h then false else repaintBeforeSignal w h rest
  | .repaint w2 h2 :: rest =>
      if w2 = w ∧ h2 = h then true else repaintBeforeSignal w h rest

/-- The interleaving refuting the claim: a full render at 800 by 1000
completes; a render at 1600 by 2000 starts (resizing the canvas at
once); the highlights state changes while that render is in flight. -/
def c9trace : List REvent :=
  [.startRender 800 1000, .completeRender 0, .startRender 1600 2000,
    .changeHighlights, .completeRender 1]

/-- C9 counterexample: on the c9trace interleaving an overlay repaint at
the new dimensions 1600 by 2000 (triggered by the highlights change while
that render is in flight, against the already-resized canvas) appears in
the log before the completion signal for those dimensions, contradicting
the claim that no overlay repaint for those dimensions occurs before that
signal. -/
theorem canceled_render_claim_cex :
    repaintBeforeSignal 1600 2000 (runRenderer c9trace).2 = true := by
  decide

/-- C9 amended: starting a new render cancels the in-flight render; a
canceled render's completion is an exact no-op, never repainting and
never incrementing the render key; and every render-complete signal is
produced only by the successful completion of the in-flight render, with
the canvas dimensions set for it and with the render key incremented.
However, overlay repaints are also triggered by entry and highlight
changes once any render has completed, and since the canvas is resized
when a render starts, such a repaint can occur for the new dimensions
before that render's completion signal. -/
theorem render_cancellation_amended :
    (∀ (s : RendererState) (w h i : ℕ),
      s.inFlight = some i → i ∈ (step s (.startRender w h)).1.canceled) ∧
    (∀ (tr : List REvent) (i : ℕ),
      i ∈ (runRenderer tr).1.canceled →
        step (runRenderer tr).1 (.completeRender i) = ((runRenderer tr).1, [])) ∧
    (∀ (s : RendererState) (e : REvent) (w h : ℕ),
      .signal w h ∈ (step s e).2 →
        ∃ i, e = .completeRender i ∧ s.inFlight = some i ∧
          w = s.canvasW ∧ h = s.canvasH ∧
          (step s e).1.pageRenderKey = s.pageRenderKey + 1) := by
  refine ⟨?_, ?_, ?_⟩
  · intro s w h i hif
    simp [step, hif]
  · intro tr i hic
    have hinv := rendererInv_run tr
    have hne : (runRenderer tr).1.inFlight ≠ some i := by
      intro he
      exact (hinv.2 i he).2 hic
    simp [step, if_neg hne]
  · intro s e w h hmem
    cases e with
    | startRender w2 h2 =>
        simp [step] at hmem
    | completeRender i =>
        by_cases hif : s.inFlight = some i
        · simp only [step, if_pos hif, List.mem_cons, List.not_mem_nil, or_false] at hmem
          rcases hmem with hmem | hmem
          · cases hmem
            exact ⟨i, rfl, hif, rfl, rfl, by simp [step, if_pos hif]⟩
          · simp at hmem
        · simp [step, if_neg hif] at hmem
    | changeHighlights =>
        by_cases hk : 0 < s.pageRenderKey
        · simp [step, hk] at hmem
        · simp [step, hk] at hmem

/-- Render-cancellation behavior exercised concretely: after two
successive render starts the first task is canceled, its completion is an
exact no-op, and the first signal of a successful completion carries the
dimensions set at its render start together with the key increment. -/
theorem render_cancellation_amended_witness :
    (0 ∈ (step (runRenderer [.startRender 800 1000]).1 (.startRender 1600 2000)).1.canceled) ∧
    (0 ∈ (runRenderer [.startRender 800 1000, .startRender 1600 2000]).1.canceled ∧
      step (runRenderer [.startRender 800 1000, .startRender 1600 2000]).1
          (.completeRender 0) =
        ((runRenderer [.startRender 800 1000, .startRender 1600 2000]).1, [])) ∧
    (∃ i, REvent.completeRender 0 = REvent.completeRender i ∧
      (runRenderer [.startRender 800 1000]).1.inFlight = some i ∧
      800 = (runRenderer [.startRender 800 1000]).1.canvasW ∧
      1000 = (runRenderer [.startRender 800 1000]).1.canvasH ∧
      (step (runRenderer [.startRender 800 1000]).1 (.completeRender 0)).1.pageRenderKey =
        (runRenderer [.startRender 800 1000]).1.pageRenderKey + 1) := by
  refine ⟨?_, ⟨?_, ?_⟩, ?_⟩
  · exact render_cancellation_amended.1 (runRenderer [.startRender 800 1000]).1
      1600 2000 0 (by decide)
  · decide
  · exact render_cancellation_amended.2.1 [.startRender 800 1000, .startRender 1600 2000]
      0 (by decide)
  · exact render_cancellation_amended.2.2 (runRenderer [.startRender 800 1000]).1
      (.completeRender 0) 800 1000 (by decide)

end CuePad
